import Mathlib

/-
Verification of ddr/tools/blob_reader/blob_reader.cpp.

The decoder is shallowly embedded: the blob file and the in-memory blob
buffer are lists of bytes (`List Nat`, each element < 256 for real inputs),
the host is modelled as little-endian, and the C pointer arithmetic becomes
explicit indices into the buffer.  Reads outside the allocated buffer are
undefined behaviour in the C source; the model makes them total by letting
an out-of-range read return 0 (`byteAt`), which keeps the crucial fact that
no error is raised on such an access.  In-place mutation of the buffer
(the `endian_swap` calls) is modelled by threading the buffer through every
function and returning the final buffer from the decoder.
-/

namespace BlobReader

/-- A byte buffer: the file contents / in-memory blob. -/
abbrev Buf := List Nat

/-- Read the byte at index `i`; an out-of-range read yields 0 (the model's
stand-in for the C code's unchecked memory access). -/
def byteAt (buf : Buf) (i : Nat) : Nat := buf.getD i 0

/-- `swap_bytes` (blob_reader.cpp:36-43): exchange the bytes at positions
`left` and `right`. `List.set` out of range is a no-op, matching the model's
convention for out-of-range access. -/
def swap_bytes (buf : Buf) (left right : Nat) : Buf :=
  (buf.set left (byteAt buf right)).set right (byteAt buf left)

/-- `swap_u16` (blob_reader.cpp:45-51): reverse the two bytes of a 16-bit
value that starts at index `i`. -/
def swap_u16 (buf : Buf) (i : Nat) : Buf := swap_bytes buf i (i + 1)

/-- `swap_u32` (blob_reader.cpp:53-60): reverse the four bytes of a 32-bit
value that starts at index `i` (swap 0↔3 then 1↔2). -/
def swap_u32 (buf : Buf) (i : Nat) : Buf :=
  swap_bytes (swap_bytes buf i (i + 3)) (i + 1) (i + 2)

/-- `BlobConstant::endian_swap`'s byte-pair exchanges (blob_reader.cpp:130-136):
swap the eight bytes starting at `i` pairwise 0↔7, 1↔6, 2↔5, 3↔4. -/
def swap_u64pairs (buf : Buf) (i : Nat) : Buf :=
  swap_bytes (swap_bytes (swap_bytes (swap_bytes buf i (i + 7)) (i + 1) (i + 6))
      (i + 2) (i + 5)) (i + 3) (i + 4)

/-- Read a 16-bit value stored at index `i` in host (little-endian) order. -/
def readU16 (buf : Buf) (i : Nat) : Nat := byteAt buf i + 256 * byteAt buf (i + 1)

/-- Read a 32-bit value stored at index `i` in host (little-endian) order. -/
def readU32 (buf : Buf) (i : Nat) : Nat :=
  byteAt buf i + 256 * byteAt buf (i + 1) + 65536 * byteAt buf (i + 2) +
    16777216 * byteAt buf (i + 3)

/-- Read a 64-bit value stored at index `i` in host (little-endian) order
(this is the `*(uint64_t *)blobConst->value` read at blob_reader.cpp:354). -/
def readU64 (buf : Buf) (i : Nat) : Nat := readU32 buf i + 4294967296 * readU32 buf (i + 4)

/-- Value-level effect of `swap_u32` on a 32-bit value held in a local
variable (used for the header, which is swapped in its own storage, not in
the blob buffer). -/
def swap32val (v : Nat) : Nat :=
  v % 256 * 16777216 + v / 256 % 256 * 65536 + v / 65536 % 256 * 256 + v / 16777216 % 256

/-- `BlobHeaderV1` (blob_reader.cpp:62-79).  The single-byte fields are kept
as bytes; `padding` is never used by the decoder. -/
structure BlobHeaderV1 where
  coreVersion : Nat
  sizeofBool : Nat
  sizeofUDATA : Nat
  bitfieldFormat : Nat
  padding : Nat
  structDataSize : Nat
  stringTableDataSize : Nat
  structureCount : Nat
deriving DecidableEq

/-- `sizeof(BlobHeaderV1)`: 4 + 1 + 1 + 1 + 1 + 4 + 4 + 4 = 20 bytes,
no implicit padding. -/
def sizeof_BlobHeaderV1 : Nat := 20

/-- `sizeof(BlobStruct)` (blob_reader.cpp:91-106): five 32-bit fields. -/
def sizeof_BlobStruct : Nat := 20

/-- `sizeof(BlobField)` (blob_reader.cpp:108-119): three 32-bit fields. -/
def sizeof_BlobField : Nat := 12

/-- `sizeof(BlobConstant)` (blob_reader.cpp:121-138): a 32-bit name and a
64-bit value stored as two 32-bit halves. -/
def sizeof_BlobConstant : Nat := 12

/-- The header as read verbatim from the first 20 bytes of the file
(`fread` into `blobHdrV1`, blob_reader.cpp:203). -/
def readHeader (file : Buf) : BlobHeaderV1 :=
  { coreVersion := readU32 file 0
    sizeofBool := byteAt file 4
    sizeofUDATA := byteAt file 5
    bitfieldFormat := byteAt file 6
    padding := byteAt file 7
    structDataSize := readU32 file 8
    stringTableDataSize := readU32 file 12
    structureCount := readU32 file 16 }

/-- `BlobHeaderV1::endian_swap` (blob_reader.cpp:72-78): swap the four
32-bit fields; the single-byte fields are untouched. -/
def BlobHeaderV1.endian_swap (h : BlobHeaderV1) : BlobHeaderV1 :=
  { h with
    coreVersion := swap32val h.coreVersion
    structDataSize := swap32val h.structDataSize
    stringTableDataSize := swap32val h.stringTableDataSize
    structureCount := swap32val h.structureCount }

/-- Byte-order inference and header correction (blob_reader.cpp:210-218):
`swapsNeeded` holds iff the raw `coreVersion` exceeds 0xFFFF, and then the
header is swapped before use. -/
def decodeHeader (file : Buf) : Bool × BlobHeaderV1 :=
  let raw := readHeader file
  let swapsNeeded : Bool := decide (65535 < raw.coreVersion)
  (swapsNeeded, if swapsNeeded then raw.endian_swap else raw)

/-- `blobLength` (blob_reader.cpp:237): declared total blob size. -/
def blobLength (h : BlobHeaderV1) : Nat :=
  sizeof_BlobHeaderV1 + h.structDataSize + h.stringTableDataSize

/-- The bytes `buf[i], buf[i+1], ..., buf[i+len-1]` (a `%.*s`-style slice;
out-of-range bytes read as 0 per the model's convention). -/
def slice (buf : Buf) (i len : Nat) : List Nat :=
  (List.range len).map (fun k => byteAt buf (i + k))

/-- One entry of the printed string enumeration (blob_reader.cpp:262-280):
its offset from the start of the string-table region, its (post-swap)
length, and its content bytes. -/
structure StringEntry where
  offset : Nat
  length : Nat
  data : List Nat
deriving DecidableEq

/-- The string enumeration loop (blob_reader.cpp:262-280).  Each iteration
swaps the 16-bit length in place (when needed), records the entry and
advances by `length + 2 + (length & 1)`.  The loop consumes at least two
bytes per iteration, so `fuel := stringTableDataSize` iterations always
suffice; fuel exhaustion with the cursor still inside the region cannot
happen for the fuel the decoder passes. -/
def readStrings (swapsNeeded : Bool) (stringDataStart stringDataEnd : Nat) :
    Nat → Buf → Nat → List StringEntry × Buf
  | 0, buf, _ => ([], buf)
  | fuel + 1, buf, currentString =>
    if currentString < stringDataEnd then
      let buf1 := if swapsNeeded then swap_u16 buf currentString else buf
      let len := readU16 buf1 currentString
      let padding := len % 2
      let entry : StringEntry :=
        { offset := currentString - stringDataStart
          length := len
          data := slice buf1 (currentString + 2) len }
      let rest := readStrings swapsNeeded stringDataStart stringDataEnd fuel buf1
        (currentString + len + 2 + padding)
      (entry :: rest.1, rest.2)
    else ([], buf)

/-- `BLOBSTRING_AT(offset)->length` (blob_reader.cpp:290-291): an unchecked
16-bit read at `stringDataStart + offset`; no swap is applied here. -/
def BLOBSTRING_AT_length (buf : Buf) (stringDataStart offset : Nat) : Nat :=
  readU16 buf (stringDataStart + offset)

/-- `BLOBSTRING_AT(offset)->data`: the buffer index of the first content
byte, two bytes past the entry's length field. -/
def BLOBSTRING_AT_data (stringDataStart offset : Nat) : Nat :=
  stringDataStart + offset + 2

/-- Decoded `Field` (blob_reader.cpp:170-176): the `char *` name/type
pointers become buffer indices. -/
structure Field where
  nameOff : Nat
  nameLength : Nat
  typeOff : Nat
  typeLength : Nat
  offset : Nat
deriving DecidableEq

/-- Decoded `Constant` (blob_reader.cpp:178-182). -/
structure Constant where
  nameOff : Nat
  nameLength : Nat
  value : Nat
deriving DecidableEq

/-- Decoded `Structure` (blob_reader.cpp:143-162): `superNameOff = none`
models the NULL superName pointer. -/
structure Structure where
  nameOff : Nat
  nameLength : Nat
  superNameOff : Option Nat
  superNameLength : Nat
  size : Nat
  fields : List Field
  constants : List Constant
deriving DecidableEq

/-- `BlobStruct::endian_swap` applied in place to the buffer when needed
(blob_reader.cpp:301-303): swap the five 32-bit fields of the structure
record at `cur`. -/
def structSwap (swapsNeeded : Bool) (buf : Buf) (cur : Nat) : Buf :=
  if swapsNeeded then
    swap_u32 (swap_u32 (swap_u32 (swap_u32 (swap_u32 buf cur) (cur + 4)) (cur + 8))
        (cur + 12)) (cur + 16)
  else buf

/-- `BlobField::endian_swap` applied in place (blob_reader.cpp:324-326). -/
def fieldSwap (swapsNeeded : Bool) (buf : Buf) (cur : Nat) : Buf :=
  if swapsNeeded then swap_u32 (swap_u32 (swap_u32 buf cur) (cur + 4)) (cur + 8)
  else buf

/-- `BlobConstant::endian_swap` applied in place (blob_reader.cpp:345-347):
swap the 32-bit name, then the 64-bit value as byte pairs. -/
def constantSwap (swapsNeeded : Bool) (buf : Buf) (cur : Nat) : Buf :=
  if swapsNeeded then swap_u64pairs (swap_u32 buf cur) (cur + 4)
  else buf

/-- The field loop (blob_reader.cpp:320-339): decode `n` field records from
`cur`, each 12 bytes, resolving name and type through the string table
without any bounds check or further swap of the length fields. -/
def readFields (swapsNeeded : Bool) (stringDataStart : Nat) :
    Nat → Buf → Nat → List Field × Buf × Nat
  | 0, buf, cur => ([], buf, cur)
  | n + 1, buf, cur =>
    let buf1 := fieldSwap swapsNeeded buf cur
    let field : Field :=
      { nameOff := BLOBSTRING_AT_data stringDataStart (readU32 buf1 cur)
        nameLength := BLOBSTRING_AT_length buf1 stringDataStart (readU32 buf1 cur)
        typeOff := BLOBSTRING_AT_data stringDataStart (readU32 buf1 (cur + 4))
        typeLength := BLOBSTRING_AT_length buf1 stringDataStart (readU32 buf1 (cur + 4))
        offset := readU32 buf1 (cur + 8) }
    let rest := readFields swapsNeeded stringDataStart n buf1 (cur + sizeof_BlobField)
    (field :: rest.1, rest.2.1, rest.2.2)

/-- The constant loop (blob_reader.cpp:341-358): decode `n` constant
records from `cur`, each 12 bytes, reading the 64-bit value from the two
32-bit halves after any needed swap. -/
def readConstants (swapsNeeded : Bool) (stringDataStart : Nat) :
    Nat → Buf → Nat → List Constant × Buf × Nat
  | 0, buf, cur => ([], buf, cur)
  | n + 1, buf, cur =>
    let buf1 := constantSwap swapsNeeded buf cur
    let constant : Constant :=
      { nameOff := BLOBSTRING_AT_data stringDataStart (readU32 buf1 cur)
        nameLength := BLOBSTRING_AT_length buf1 stringDataStart (readU32 buf1 cur)
        value := readU64 buf1 (cur + 4) }
    let rest := readConstants swapsNeeded stringDataStart n buf1 (cur + sizeof_BlobConstant)
    (constant :: rest.1, rest.2.1, rest.2.2)

/-- One iteration of the structure loop (blob_reader.cpp:298-362): swap the
record in place if needed, resolve the name, resolve or omit the
superclass (all-ones sentinel), then decode exactly `fieldCount` field
records followed by exactly `constCount` constant records. -/
def readOneStruct (swapsNeeded : Bool) (stringDataStart : Nat) (buf : Buf) (cur : Nat) :
    Structure × Buf × Nat :=
  let buf1 := structSwap swapsNeeded buf cur
  let nameOffset := readU32 buf1 cur
  let superName := readU32 buf1 (cur + 4)
  let fr := readFields swapsNeeded stringDataStart (readU32 buf1 (cur + 12)) buf1
    (cur + sizeof_BlobStruct)
  let cr := readConstants swapsNeeded stringDataStart (readU32 buf1 (cur + 16)) fr.2.1 fr.2.2
  ({ nameOff := BLOBSTRING_AT_data stringDataStart nameOffset
     nameLength := BLOBSTRING_AT_length buf1 stringDataStart nameOffset
     superNameOff := if superName = 4294967295 then none
       else some (BLOBSTRING_AT_data stringDataStart superName)
     superNameLength := if superName = 4294967295 then 0
       else BLOBSTRING_AT_length buf1 stringDataStart superName
     size := readU32 buf1 (cur + 8)
     fields := fr.1
     constants := cr.1 }, cr.2.1, cr.2.2)

/-- The structure loop (blob_reader.cpp:296-362): `structureCount`
iterations of `readOneStruct`, in on-disk order. -/
def readStructs (swapsNeeded : Bool) (stringDataStart : Nat) :
    Nat → Buf → Nat → List Structure × Buf × Nat
  | 0, buf, cur => ([], buf, cur)
  | n + 1, buf, cur =>
    let r := readOneStruct swapsNeeded stringDataStart buf cur
    let rest := readStructs swapsNeeded stringDataStart n r.2.1 r.2.2
    (r.1 :: rest.1, rest.2.1, rest.2.2)

/-- The C string starting at buffer index `i`: the bytes up to (not
including) the first zero byte.  Bytes past the end of the buffer read as
0, so the string always terminates at the buffer's end at the latest. -/
def cstr (buf : Buf) (i : Nat) : List Nat :=
  (buf.drop i).takeWhile (fun b => b ≠ 0)

/-- `strcmp(a, b) < 0` for the NUL-stripped byte strings `a` and `b`:
byte-wise (unsigned) lexicographic comparison. -/
def strLt : List Nat → List Nat → Bool
  | [], [] => false
  | [], _ :: _ => true
  | _ :: _, [] => false
  | a :: as, b :: bs => if a < b then true else if b < a then false else strLt as bs

/-- `compareStructs` (blob_reader.cpp:164-168): `strcmp(first->name,
second->name) < 0`, reading the buffer from each structure's name pointer
until a NUL byte. -/
def compareStructs (buf : Buf) (first second : Structure) : Bool :=
  strLt (cstr buf first.nameOff) (cstr buf second.nameOff)

/-- `sort(structs.begin(), structs.end(), compareStructs)`
(blob_reader.cpp:363), modelled as an insertion sort by the complement of
the strict comparison (a valid `std::sort` result; the unique result when
all keys are distinct). -/
def sortStructs (buf : Buf) (l : List Structure) : List Structure :=
  List.insertionSort (fun a b => compareStructs buf b a = false) l

/-- Everything the decode produces: the corrected header, the swap flag,
the string enumeration, the structures in decode (on-disk) order, the
structures in report (sorted) order, and the final state of the blob
buffer. -/
structure DecodeResult where
  header : BlobHeaderV1
  swapsNeeded : Bool
  strings : List StringEntry
  structs : List Structure
  sortedStructs : List Structure
  finalBuf : Buf
deriving DecidableEq

/-- The whole decoder (`main`, blob_reader.cpp:184-418) on a file given as
a byte list.  `none` models the fatal-error exits: a short header read and
a short full-buffer read; these are the only failure paths.  `malloc`
failure is an environment condition, not a property of the input, and is
modelled as success. -/
def decodeBlob (file : Buf) : Option DecodeResult :=
  if file.length < sizeof_BlobHeaderV1 then none
  else
    let dh := decodeHeader file
    let swapsNeeded := dh.1
    let hdr := dh.2
    let len := blobLength hdr
    if file.length < len then none
    else
      let blobBuffer := file.take len
      let stringDataStart := sizeof_BlobHeaderV1 + hdr.structDataSize
      let stringDataEnd := stringDataStart + hdr.stringTableDataSize
      let sp := readStrings swapsNeeded stringDataStart stringDataEnd
        hdr.stringTableDataSize blobBuffer stringDataStart
      let sw := readStructs swapsNeeded stringDataStart hdr.structureCount sp.2
        sizeof_BlobHeaderV1
      some
        { header := hdr
          swapsNeeded := swapsNeeded
          strings := sp.1
          structs := sw.1
          sortedStructs := sortStructs sw.2.1 sw.1
          finalBuf := sw.2.1 }

/-- The name of a decoded structure as the report prints it
(`%.*s` with `nameLength` and `name`, blob_reader.cpp:368-370). -/
def structName (buf : Buf) (s : Structure) : List Nat :=
  slice buf s.nameOff s.nameLength

/-! ### Input constructions

Encoders used to build string-table regions inside theorem statements.
These construct inputs for the decoder; they are not part of the embedded
program. -/

/-- A 16-bit length in the reading host's (little-endian) byte order. -/
def encLenNative (len : Nat) : List Nat := [len % 256, len / 256 % 256]

/-- A 16-bit length in the opposite byte order. -/
def encLenSwapped (len : Nat) : List Nat := [len / 256 % 256, len % 256]

/-- One string-table entry in native order: length, content, and one zero
padding byte when the length is odd. -/
def entryNative (s : List Nat) : List Nat :=
  encLenNative s.length ++ s ++ List.replicate (s.length % 2) 0

/-- One string-table entry with its length field in the opposite byte
order. -/
def entrySwapped (s : List Nat) : List Nat :=
  encLenSwapped s.length ++ s ++ List.replicate (s.length % 2) 0

/-- A whole string-table region in native order. -/
def tableNative (es : List (List Nat)) : List Nat := (es.map entryNative).flatten

/-- A whole string-table region with every length field in the opposite
byte order. -/
def tableSwapped (es : List (List Nat)) : List Nat := (es.map entrySwapped).flatten

/-- The entry list the enumeration is expected to produce for the strings
`es`, with the first entry at region offset `off`. -/
def entriesSpec : List (List Nat) → Nat → List StringEntry
  | [], _ => []
  | s :: es, off =>
    ⟨off, s.length, s⟩ :: entriesSpec es (off + s.length + 2 + s.length % 2)

/-! ### Concrete inputs used by the theorems -/

/-- A 20-byte header with `coreVersion = 1` in native byte order. -/
def hdrNative1 : Buf := [1,0,0,0, 1,8,1,0, 0,0,0,0, 0,0,0,0, 0,0,0,0]

/-- The same header stored in the opposite byte order. -/
def hdrSwapped1 : Buf := [0,0,0,1, 1,8,1,0, 0,0,0,0, 0,0,0,0, 0,0,0,0]

/-- A native-order blob with one structure whose `nameOffset` (1000) points
far past the end of its 4-byte string-table region. -/
def oobBlob : Buf :=
  [1,0,0,0, 1,8,1,0, 20,0,0,0, 4,0,0,0, 1,0,0,0] ++
  [232,3,0,0, 255,255,255,255, 8,0,0,0, 0,0,0,0, 0,0,0,0] ++
  [1,0,97,0]

/-- A native-order blob declaring empty struct and string sections, with
three extra trailing bytes beyond the declared total length of 20. -/
def longBlob : Buf := [1,0,0,0, 1,8,1,0, 0,0,0,0, 0,0,0,0, 0,0,0,0, 7,7,7]

/-- A reversed-order blob (`coreVersion = 1` stored big-endian): empty
struct section, 4-byte string table holding the single string "a". -/
def swappedBlob : Buf :=
  [0,0,0,1, 1,8,1,0, 0,0,0,0, 0,0,0,4, 0,0,0,0] ++ [0,1,97,0]

/-- A native-order blob: empty struct section, 4-byte string table holding
the single string "a".  No byte swapping is needed for it. -/
def plainBlob : Buf :=
  [1,0,0,0, 1,8,1,0, 0,0,0,0, 4,0,0,0, 0,0,0,0] ++ [1,0,97,0]

/-- The decode result of `plainBlob`. -/
def plainResult : DecodeResult := (decodeBlob plainBlob).get (by decide)

/-- A blob with three structures named "Zeta", "Alpha", "Mu" in on-disk
order (no fields, no constants, no superclasses). -/
def zamBlob : Buf :=
  [1,0,0,0, 1,8,1,0, 60,0,0,0, 18,0,0,0, 3,0,0,0] ++
  [0,0,0,0, 255,255,255,255, 4,0,0,0, 0,0,0,0, 0,0,0,0] ++
  [6,0,0,0, 255,255,255,255, 4,0,0,0, 0,0,0,0, 0,0,0,0] ++
  [14,0,0,0, 255,255,255,255, 4,0,0,0, 0,0,0,0, 0,0,0,0] ++
  [4,0,90,101,116,97] ++ [5,0,65,108,112,104,97,0] ++ [2,0,77,117]

/-- String-table region for the sort counterexample: "abc" at offset 0,
"ab" at offset 6, and a final entry of declared length 101 at offset 10.
The byte following the content of "ab" is the next entry's length byte
101, so `strcmp` starting at the name pointer of "ab" compares the bytes
97,98,101, which exceeds "abc" = 97,98,99. -/
def c6strings : Buf := [3,0,97,98,99,0] ++ [2,0,97,98] ++ [101,0]

/-- A blob with two structures named "ab" and "abc" (in this on-disk
order) over the `c6strings` table. -/
def c6Blob : Buf :=
  [1,0,0,0, 1,8,1,0, 40,0,0,0, 12,0,0,0, 2,0,0,0] ++
  [6,0,0,0, 255,255,255,255, 4,0,0,0, 0,0,0,0, 0,0,0,0] ++
  [0,0,0,0, 255,255,255,255, 4,0,0,0, 0,0,0,0, 0,0,0,0] ++
  c6strings

/-- A 56-byte struct-data block: one structure record declaring
`fieldCount = 2, constCount = 1`, followed by exactly two field records and
one constant record. -/
def c2buf : Buf :=
  [0,0,0,0, 255,255,255,255, 8,0,0,0, 2,0,0,0, 1,0,0,0] ++
  [0,0,0,0, 0,0,0,0, 0,0,0,0] ++ [0,0,0,0, 0,0,0,0, 4,0,0,0] ++
  [0,0,0,0, 42,0,0,0, 0,0,0,0]

/-- A string-table region holding "abc" (odd length, one pad byte) followed
by an empty string. -/
def c7region : Buf := [3,0,97,98,99,0, 0,0]

/-- A structure record whose `superName` is the all-ones sentinel. -/
def c5sent : Buf := [0,0,0,0, 255,255,255,255, 8,0,0,0, 0,0,0,0, 0,0,0,0]

/-- A structure record with a resolvable (non-sentinel) `superName` of 6. -/
def c5rec : Buf := [0,0,0,0, 6,0,0,0, 8,0,0,0, 0,0,0,0, 0,0,0,0]

/-! ### Basic buffer lemmas -/

theorem byteAt_set (buf : Buf) (i k v : Nat) :
    byteAt (buf.set i v) k = if i = k ∧ i < buf.length then v else byteAt buf k := by
  by_cases h1 : i = k
  · subst h1
    by_cases h2 : i < buf.length
    · simp [byteAt, List.getD_eq_getElem?_getD, List.getElem?_set, h2]
    · simp [byteAt, List.getD_eq_getElem?_getD, List.getElem?_set, h2,
        List.getElem?_eq_none (Nat.le_of_not_lt h2)]
  · simp [byteAt, List.getD_eq_getElem?_getD, List.getElem?_set, h1]

theorem byteAt_ext {l1 l2 : Buf} (hlen : l1.length = l2.length)
    (h : ∀ k, byteAt l1 k = byteAt l2 k) : l1 = l2 := by
  apply List.ext_getElem hlen
  intro n h1 h2
  have hb := h n
  simpa [byteAt, List.getD_eq_getElem?_getD, List.getElem?_eq_getElem, h1, h2] using hb

theorem length_swap_bytes (buf : Buf) (i j : Nat) :
    (swap_bytes buf i j).length = buf.length := by
  simp [swap_bytes]

theorem byteAt_swap_bytes (buf : Buf) (i j k : Nat) :
    byteAt (swap_bytes buf i j) k =
      if j = k ∧ j < buf.length then byteAt buf i
      else if i = k ∧ i < buf.length then byteAt buf j
      else byteAt buf k := by
  unfold swap_bytes
  rw [byteAt_set, List.length_set, byteAt_set]

theorem byteAt_append_mid (pre l : Buf) (k : Nat) :
    byteAt (pre ++ l) (pre.length + k) = byteAt l k := by
  unfold byteAt
  rw [List.getD_append_right _ _ _ _ (by omega)]
  congr 1
  omega

theorem set_append_mid (pre l : Buf) (k v : Nat) :
    (pre ++ l).set (pre.length + k) v = pre ++ l.set k v := by
  rw [List.set_append, if_neg (by omega)]
  have hk : pre.length + k - pre.length = k := by omega
  rw [hk]

theorem swap_bytes_mid (pre l : Buf) (p q : Nat) :
    swap_bytes (pre ++ l) (pre.length + p) (pre.length + q) = pre ++ swap_bytes l p q := by
  unfold swap_bytes
  rw [byteAt_append_mid, byteAt_append_mid, set_append_mid, set_append_mid]

theorem swap_u16_mid (pre : Buf) (a b : Nat) (rest : Buf) :
    swap_u16 (pre ++ a :: b :: rest) pre.length = pre ++ b :: a :: rest := by
  unfold swap_u16
  exact swap_bytes_mid pre (a :: b :: rest) 0 1

theorem swap_u32_mid (pre : Buf) (a b c d : Nat) (rest : Buf) :
    swap_u32 (pre ++ a :: b :: c :: d :: rest) pre.length = pre ++ d :: c :: b :: a :: rest := by
  unfold swap_u32
  have e1 : swap_bytes (pre ++ a :: b :: c :: d :: rest) pre.length (pre.length + 3) =
      pre ++ d :: b :: c :: a :: rest := swap_bytes_mid pre (a :: b :: c :: d :: rest) 0 3
  rw [e1]
  exact swap_bytes_mid pre (d :: b :: c :: a :: rest) 1 2

theorem swap_u64pairs_mid (pre : Buf) (a b c d e f g h : Nat) (rest : Buf) :
    swap_u64pairs (pre ++ a :: b :: c :: d :: e :: f :: g :: h :: rest) pre.length =
      pre ++ h :: g :: f :: e :: d :: c :: b :: a :: rest := by
  unfold swap_u64pairs
  have e1 : swap_bytes (pre ++ a :: b :: c :: d :: e :: f :: g :: h :: rest)
      pre.length (pre.length + 7) = pre ++ h :: b :: c :: d :: e :: f :: g :: a :: rest :=
    swap_bytes_mid pre _ 0 7
  rw [e1]
  have e2 : swap_bytes (pre ++ h :: b :: c :: d :: e :: f :: g :: a :: rest)
      (pre.length + 1) (pre.length + 6) = pre ++ h :: g :: c :: d :: e :: f :: b :: a :: rest :=
    swap_bytes_mid pre _ 1 6
  rw [e2]
  have e3 : swap_bytes (pre ++ h :: g :: c :: d :: e :: f :: b :: a :: rest)
      (pre.length + 2) (pre.length + 5) = pre ++ h :: g :: f :: d :: e :: c :: b :: a :: rest :=
    swap_bytes_mid pre _ 2 5
  rw [e3]
  exact swap_bytes_mid pre _ 3 4

theorem readU16_mid (pre : Buf) (a b : Nat) (rest : Buf) :
    readU16 (pre ++ a :: b :: rest) pre.length = a + 256 * b := by
  unfold readU16
  rw [show byteAt (pre ++ a :: b :: rest) pre.length = a from byteAt_append_mid pre _ 0,
    show byteAt (pre ++ a :: b :: rest) (pre.length + 1) = b from byteAt_append_mid pre _ 1]

theorem slice_length (buf : Buf) (i len : Nat) : (slice buf i len).length = len := by
  simp [slice]

theorem slice_mid (pre s rest : Buf) :
    slice (pre ++ s ++ rest) pre.length s.length = s := by
  apply List.ext_getElem (by simp [slice])
  intro k h1 h2
  simp only [slice, List.getElem_map, List.getElem_range]
  rw [List.append_assoc, byteAt_append_mid]
  unfold byteAt
  rw [List.getD_append _ _ _ _ h2]
  exact List.getD_eq_getElem s 0 h2

/-! ### Loop bookkeeping lemmas -/

theorem readFields_cursor (swaps : Bool) (sds : Nat) :
    ∀ (n : Nat) (buf : Buf) (cur : Nat),
      (readFields swaps sds n buf cur).2.2 = cur + sizeof_BlobField * n
  | 0, _, _ => by simp [readFields]
  | n + 1, buf, cur => by
    simp only [readFields]
    rw [readFields_cursor swaps sds n]
    simp only [sizeof_BlobField]
    omega

theorem readFields_count (swaps : Bool) (sds : Nat) :
    ∀ (n : Nat) (buf : Buf) (cur : Nat), (readFields swaps sds n buf cur).1.length = n
  | 0, _, _ => by simp [readFields]
  | n + 1, buf, cur => by
    simp only [readFields, List.length_cons]
    rw [readFields_count swaps sds n]

theorem readConstants_cursor (swaps : Bool) (sds : Nat) :
    ∀ (n : Nat) (buf : Buf) (cur : Nat),
      (readConstants swaps sds n buf cur).2.2 = cur + sizeof_BlobConstant * n
  | 0, _, _ => by simp [readConstants]
  | n + 1, buf, cur => by
    simp only [readConstants]
    rw [readConstants_cursor swaps sds n]
    simp only [sizeof_BlobConstant]
    omega

theorem readConstants_count (swaps : Bool) (sds : Nat) :
    ∀ (n : Nat) (buf : Buf) (cur : Nat), (readConstants swaps sds n buf cur).1.length = n
  | 0, _, _ => by simp [readConstants]
  | n + 1, buf, cur => by
    simp only [readConstants, List.length_cons]
    rw [readConstants_count swaps sds n]

/-! ### Buffer preservation when no swap is needed -/

theorem readStrings_noswap (s e : Nat) :
    ∀ (fuel : Nat) (buf : Buf) (cur : Nat), (readStrings false s e fuel buf cur).2 = buf
  | 0, _, _ => rfl
  | fuel + 1, buf, cur => by
    by_cases h : cur < e <;>
      simp [readStrings, h, readStrings_noswap s e fuel]

theorem readFields_noswap (sds : Nat) :
    ∀ (n : Nat) (buf : Buf) (cur : Nat), (readFields false sds n buf cur).2.1 = buf
  | 0, _, _ => rfl
  | n + 1, buf, cur => by
    simp [readFields, fieldSwap, readFields_noswap sds n]

theorem readConstants_noswap (sds : Nat) :
    ∀ (n : Nat) (buf : Buf) (cur : Nat), (readConstants false sds n buf cur).2.1 = buf
  | 0, _, _ => rfl
  | n + 1, buf, cur => by
    simp [readConstants, constantSwap, readConstants_noswap sds n]

theorem readOneStruct_noswap (sds : Nat) (buf : Buf) (cur : Nat) :
    (readOneStruct false sds buf cur).2.1 = buf := by
  simp [readOneStruct, structSwap, readFields_noswap, readConstants_noswap]

theorem readStructs_noswap (sds : Nat) :
    ∀ (n : Nat) (buf : Buf) (cur : Nat), (readStructs false sds n buf cur).2.1 = buf
  | 0, _, _ => rfl
  | n + 1, buf, cur => by
    simp [readStructs, readStructs_noswap sds n, readOneStruct_noswap]

/-! ### The strict byte-wise order used by the sort -/

theorem strLt_asymm : ∀ (a b : List Nat), strLt a b = true → strLt b a = false
  | [], [], h => by simp [strLt] at h
  | [], _ :: _, _ => rfl
  | _ :: _, [], h => by simp [strLt] at h
  | x :: xs, y :: ys, h => by
    simp only [strLt] at h ⊢
    by_cases hxy : x < y
    · rw [if_neg (by omega), if_pos (by omega)]
    · rw [if_neg hxy] at h
      by_cases hyx : y < x
      · rw [if_pos hyx] at h
        exact absurd h (by simp)
      · rw [if_neg hyx] at h
        rw [if_neg (by omega), if_neg (by omega)]
        exact strLt_asymm xs ys h

theorem strLt_false_trans :
    ∀ (a b c : List Nat), strLt b a = false → strLt c b = false → strLt c a = false
  | [], _, [], _, _ => rfl
  | _, _ :: _, [], _, h2 => by simp [strLt] at h2
  | x :: xs, [], [], h1, _ => by simp [strLt] at h1
  | [], _, _ :: _, _, _ => rfl
  | x :: xs, [], z :: zs, h1, _ => by simp [strLt] at h1
  | x :: xs, y :: ys, z :: zs, h1, h2 => by
    simp only [strLt] at h1 h2 ⊢
    by_cases h1a : y < x
    · rw [if_pos h1a] at h1
      exact absurd h1 (by simp)
    · rw [if_neg h1a] at h1
      by_cases h2a : z < y
      · rw [if_pos h2a] at h2
        exact absurd h2 (by simp)
      · rw [if_neg h2a] at h2
        rw [if_neg (by omega)]
        by_cases g2 : x < z
        · rw [if_pos g2]
        · rw [if_neg g2]
          have hxy : ¬x < y := by omega
          have hyz : ¬y < z := by omega
          rw [if_neg hxy] at h1
          rw [if_neg hyz] at h2
          exact strLt_false_trans xs ys zs h1 h2

/-! ### Failure characterization and take stability -/

theorem decodeBlob_eq_none_iff (file : Buf) :
    decodeBlob file = none ↔
      file.length < sizeof_BlobHeaderV1 ∨
        file.length < blobLength (decodeHeader file).2 := by
  unfold decodeBlob
  by_cases h1 : file.length < sizeof_BlobHeaderV1
  · simp [h1]
  · rw [if_neg h1]
    by_cases h2 : file.length < blobLength (decodeHeader file).2
    · simp only []
      rw [if_pos h2]
      simp [h1, h2]
    · simp only []
      rw [if_neg h2]
      simp [h1, h2]

theorem byteAt_take (file : Buf) (n k : Nat) :
    byteAt (file.take n) k = if k < n then byteAt file k else 0 := by
  unfold byteAt
  rw [List.getD_eq_getElem?_getD, List.getD_eq_getElem?_getD, List.getElem?_take]
  by_cases h : k < n <;> simp [h]

theorem decodeHeader_take (file : Buf) (n : Nat) (h : sizeof_BlobHeaderV1 ≤ n) :
    decodeHeader (file.take n) = decodeHeader file := by
  have hb : ∀ k, k < sizeof_BlobHeaderV1 → byteAt (file.take n) k = byteAt file k := by
    intro k hk
    rw [byteAt_take, if_pos (by simp [sizeof_BlobHeaderV1] at h hk; omega)]
  have hh : readHeader (file.take n) = readHeader file := by
    simp only [readHeader, readU16, readU32]
    simp only [sizeof_BlobHeaderV1] at hb
    rw [hb 0 (by omega), hb 1 (by omega), hb 2 (by omega), hb 3 (by omega),
      hb 4 (by omega), hb 5 (by omega), hb 6 (by omega), hb 7 (by omega),
      hb 8 (by omega), hb 9 (by omega), hb 10 (by omega), hb 11 (by omega),
      hb 12 (by omega), hb 13 (by omega), hb 14 (by omega), hb 15 (by omega),
      hb 16 (by omega), hb 17 (by omega), hb 18 (by omega), hb 19 (by omega)]
  unfold decodeHeader
  rw [hh]

theorem blobLength_ge (h : BlobHeaderV1) : sizeof_BlobHeaderV1 ≤ blobLength h := by
  unfold blobLength
  omega

theorem decodeBlob_take (file : Buf) (hlen : blobLength (decodeHeader file).2 ≤ file.length) :
    decodeBlob (file.take (blobLength (decodeHeader file).2)) = decodeBlob file := by
  have h20 : sizeof_BlobHeaderV1 ≤ blobLength (decodeHeader file).2 := blobLength_ge _
  have hdh := decodeHeader_take file (blobLength (decodeHeader file).2) h20
  have htl : (file.take (blobLength (decodeHeader file).2)).length =
      blobLength (decodeHeader file).2 := List.length_take_of_le hlen
  simp only [decodeBlob]
  rw [hdh, htl]
  rw [if_neg (by omega : ¬blobLength (decodeHeader file).2 < sizeof_BlobHeaderV1),
    if_neg (by omega : ¬file.length < sizeof_BlobHeaderV1),
    if_neg (by omega :
      ¬blobLength (decodeHeader file).2 < blobLength (decodeHeader file).2),
    if_neg (by omega : ¬file.length < blobLength (decodeHeader file).2)]
  rw [List.take_take]
  simp

/-! ### The string enumeration pass over an encoded table -/

theorem readStrings_table :
    ∀ (es : List (List Nat)), (∀ s ∈ es, s.length < 65536) →
    ∀ (pre : Buf) (START fuel : Nat), START ≤ pre.length → es.length ≤ fuel →
      readStrings true START (pre.length + (tableSwapped es).length) fuel
          (pre ++ tableSwapped es) pre.length =
        (entriesSpec es (pre.length - START), pre ++ tableNative es)
  | [], _, pre, START, fuel, _, _ => by
    cases fuel <;> simp [readStrings, tableSwapped, tableNative, entriesSpec]
  | s :: es, h, pre, START, fuel, hS, hf => by
    have hf' : es.length + 1 ≤ fuel := by simpa using hf
    obtain ⟨fuel, rfl⟩ : ∃ f, fuel = f + 1 := ⟨fuel - 1, by omega⟩
    have hs : s.length < 65536 := h s (by simp)
    have hes : ∀ t ∈ es, t.length < 65536 := fun t ht => h t (by simp [ht])
    have hts : tableSwapped (s :: es) =
        (s.length / 256 % 256) :: (s.length % 256) ::
          (s ++ (List.replicate (s.length % 2) 0 ++ tableSwapped es)) := by
      simp [tableSwapped, entrySwapped, encLenSwapped]
    have htn : tableNative (s :: es) = entryNative s ++ tableNative es := by
      simp [tableNative]
    rw [hts, htn]
    have hcond : pre.length <
        pre.length + ((s.length / 256 % 256) :: (s.length % 256) ::
          (s ++ (List.replicate (s.length % 2) 0 ++ tableSwapped es))).length := by
      simp only [List.length_cons]
      omega
    simp only [readStrings]
    rw [if_pos hcond]
    simp only [eq_self_iff_true, if_true]
    rw [swap_u16_mid pre (s.length / 256 % 256) (s.length % 256)
      (s ++ (List.replicate (s.length % 2) 0 ++ tableSwapped es))]
    rw [readU16_mid pre (s.length % 256) (s.length / 256 % 256)
      (s ++ (List.replicate (s.length % 2) 0 ++ tableSwapped es))]
    have hL : s.length % 256 + 256 * (s.length / 256 % 256) = s.length := by omega
    rw [hL]
    have hslice : slice (pre ++ (s.length % 256) :: (s.length / 256 % 256) ::
        (s ++ (List.replicate (s.length % 2) 0 ++ tableSwapped es)))
        (pre.length + 2) s.length = s := by
      have h0 := slice_mid (pre ++ [s.length % 256, s.length / 256 % 256]) s
        (List.replicate (s.length % 2) 0 ++ tableSwapped es)
      simpa using h0
    rw [hslice]
    have hbuf : pre ++ (s.length % 256) :: (s.length / 256 % 256) ::
        (s ++ (List.replicate (s.length % 2) 0 ++ tableSwapped es)) =
        (pre ++ entryNative s) ++ tableSwapped es := by
      simp [entryNative, encLenNative]
    have hcur : pre.length + s.length + 2 + s.length % 2 = (pre ++ entryNative s).length := by
      simp [entryNative, encLenNative]
      omega
    have hend : pre.length + ((s.length / 256 % 256) :: (s.length % 256) ::
        (s ++ (List.replicate (s.length % 2) 0 ++ tableSwapped es))).length =
        (pre ++ entryNative s).length + (tableSwapped es).length := by
      simp [entryNative, encLenNative]
      omega
    rw [hbuf, hcur, hend]
    rw [readStrings_table es hes (pre ++ entryNative s) START fuel
      (by rw [List.length_append]; omega) (by omega)]
    have hoff : (pre ++ entryNative s).length - START =
        pre.length - START + s.length + 2 + s.length % 2 := by
      simp [entryNative, encLenNative]
      omega
    rw [hoff]
    simp [entriesSpec, List.append_assoc]

/-! ### Resolving entry-boundary offsets on the native table -/

theorem tableNative_resolve :
    ∀ (es : List (List Nat)), (∀ s ∈ es, s.length < 65536) →
    ∀ (pre : Buf) (BASE : Nat), BASE ≤ pre.length →
    ∀ e ∈ entriesSpec es (pre.length - BASE),
      readU16 (pre ++ tableNative es) (BASE + e.offset) = e.length ∧
      slice (pre ++ tableNative es) (BASE + e.offset + 2) e.length = e.data
  | [], _, _, _, _, e, he => by simp [entriesSpec] at he
  | s :: es, h, pre, BASE, hB, e, he => by
    have hs : s.length < 65536 := h s (by simp)
    have hes : ∀ t ∈ es, t.length < 65536 := fun t ht => h t (by simp [ht])
    have htn : tableNative (s :: es) =
        (s.length % 256) :: (s.length / 256 % 256) ::
          (s ++ (List.replicate (s.length % 2) 0 ++ tableNative es)) := by
      simp [tableNative, entryNative, encLenNative]
    simp only [entriesSpec, List.mem_cons] at he
    rcases he with rfl | he
    · constructor
      · rw [htn]
        dsimp only
        have hidx : BASE + (pre.length - BASE) = pre.length := by omega
        rw [hidx, readU16_mid pre (s.length % 256) (s.length / 256 % 256)
          (s ++ (List.replicate (s.length % 2) 0 ++ tableNative es))]
        omega
      · rw [htn]
        dsimp only
        have hidx : BASE + (pre.length - BASE) + 2 = pre.length + 2 := by omega
        rw [hidx]
        have h0 := slice_mid (pre ++ [s.length % 256, s.length / 256 % 256]) s
          (List.replicate (s.length % 2) 0 ++ tableNative es)
        simpa using h0
    · have hlen' : (pre ++ entryNative s).length - BASE =
          pre.length - BASE + s.length + 2 + s.length % 2 := by
        simp [entryNative, encLenNative]
        omega
      have hIH := tableNative_resolve es hes (pre ++ entryNative s) BASE
        (by rw [List.length_append]; omega) e (by rw [hlen']; exact he)
      have hbuf : (pre ++ entryNative s) ++ tableNative es = pre ++ tableNative (s :: es) := by
        simp [tableNative, List.append_assoc]
      rw [hbuf] at hIH
      exact hIH

/-! ### Entry chaining in the enumeration -/

theorem readStrings_chain (swaps : Bool) (start stop : Nat) :
    ∀ (fuel : Nat) (buf : Buf) (cur : Nat), start ≤ cur →
      (∀ e ∈ (readStrings swaps start stop fuel buf cur).1, e.data.length = e.length) ∧
      (∀ e, (readStrings swaps start stop fuel buf cur).1.head? = some e →
        e.offset = cur - start) ∧
      List.Chain' (fun e1 e2 => e2.offset = e1.offset + e1.length + 2 + e1.length % 2)
        (readStrings swaps start stop fuel buf cur).1
  | 0, buf, cur, hc => by simp [readStrings]
  | fuel + 1, buf, cur, hc => by
    by_cases h : cur < stop
    · simp only [readStrings]
      rw [if_pos h]
      have hrec := readStrings_chain swaps start stop fuel
        (if swaps then swap_u16 buf cur else buf)
        (cur + readU16 (if swaps then swap_u16 buf cur else buf) cur + 2 +
          readU16 (if swaps then swap_u16 buf cur else buf) cur % 2) (by omega)
      obtain ⟨ih1, ih2, ih3⟩ := hrec
      refine ⟨?_, ?_, ?_⟩
      · intro e hme
        simp only [List.mem_cons] at hme
        rcases hme with rfl | hme
        · exact slice_length _ _ _
        · exact ih1 e hme
      · intro e hme
        simp only [List.head?_cons, Option.some.injEq] at hme
        rw [← hme]
      · rw [List.chain'_cons']
        refine ⟨?_, ih3⟩
        intro y hy
        have hoy := ih2 y (Option.mem_def.mp hy)
        dsimp only
        omega
    · simp [readStrings, h]

/-! ### Claim theorems -/

/-- C1: for every blob header whose raw coreVersion field exceeds 0xFFFF
the decoder sets the swap-needed flag and byte-swaps every multi-byte
header field (the four 32-bit fields; the remaining fields are single
bytes) before use; in particular a header with coreVersion = 1 stored in
either native or reversed byte order decodes to coreVersion = 1 in both
cases. -/
theorem C1_byte_order_inference :
    (∀ file : Buf, 65535 < readU32 file 0 →
      (decodeHeader file).1 = true ∧
      (decodeHeader file).2 = (readHeader file).endian_swap) ∧
    (decodeHeader hdrNative1).1 = false ∧
    (decodeHeader hdrNative1).2.coreVersion = 1 ∧
    (decodeHeader hdrSwapped1).1 = true ∧
    (decodeHeader hdrSwapped1).2.coreVersion = 1 := by
  refine ⟨?_, by decide, by decide, by decide, by decide⟩
  intro file h
  have hq : decide (65535 < (readHeader file).coreVersion) = true := by
    simp only [readHeader, decide_eq_true_eq]
    exact h
  constructor
  · simp [decodeHeader, hq]
  · simp [decodeHeader, hq]

/-- C1 witness: the swap branch of the inference rule at the concrete
reversed header. -/
theorem C1_witness :
    65535 < readU32 hdrSwapped1 0 ∧
    (decodeHeader hdrSwapped1).1 = true ∧
    (decodeHeader hdrSwapped1).2 = (readHeader hdrSwapped1).endian_swap :=
  ⟨by decide, (C1_byte_order_inference.1 hdrSwapped1 (by decide)).1,
    (C1_byte_order_inference.1 hdrSwapped1 (by decide)).2⟩

/-- C2: each structure iteration decodes exactly fieldCount field records
then exactly constCount constant records and advances the cursor by
sizeof(BlobStruct) + fieldCount * sizeof(BlobField) +
constCount * sizeof(BlobConstant); for fieldCount = 2, constCount = 1 the
cursor lands exactly at byte 56, the start of the next structure block. -/
theorem C2_cursor_discipline :
    (∀ (swaps : Bool) (sds : Nat) (buf : Buf) (cur : Nat),
      (readOneStruct swaps sds buf cur).2.2 =
        cur + sizeof_BlobStruct +
          sizeof_BlobField * readU32 (structSwap swaps buf cur) (cur + 12) +
          sizeof_BlobConstant * readU32 (structSwap swaps buf cur) (cur + 16) ∧
      (readOneStruct swaps sds buf cur).1.fields.length =
        readU32 (structSwap swaps buf cur) (cur + 12) ∧
      (readOneStruct swaps sds buf cur).1.constants.length =
        readU32 (structSwap swaps buf cur) (cur + 16)) ∧
    (readOneStruct false 56 c2buf 0).2.2 = 56 ∧
    (readOneStruct false 56 c2buf 0).1.fields.length = 2 ∧
    (readOneStruct false 56 c2buf 0).1.constants.length = 1 := by
  refine ⟨?_, by decide, by decide, by decide⟩
  intro swaps sds buf cur
  refine ⟨?_, ?_, ?_⟩
  · simp only [readOneStruct]
    rw [readConstants_cursor, readFields_cursor]
  · simp only [readOneStruct]
    rw [readFields_count]
  · simp only [readOneStruct]
    rw [readConstants_count]

/-- C2 witness: the cursor equation applied at the concrete 56-byte
struct block. -/
theorem C2_witness :
    (readOneStruct false 56 c2buf 0).2.2 =
      0 + sizeof_BlobStruct +
        sizeof_BlobField * readU32 (structSwap false c2buf 0) 12 +
        sizeof_BlobConstant * readU32 (structSwap false c2buf 0) 16 :=
  (C2_cursor_discipline.1 false 56 c2buf 0).1

/-- C3 counterexample: a blob whose single structure has nameOffset 1000,
far outside its 4-byte string-table region, decodes without any error:
no bounds check fires; the name is resolved to buffer index 1042, past the
end of the 44-byte buffer, by an unchecked read. -/
theorem C3_counterexample :
    (decodeBlob oobBlob).isSome = true ∧
    (decodeHeader oobBlob).2.stringTableDataSize = 4 ∧
    readU32 oobBlob 20 = 1000 ∧
    oobBlob.length = 44 ∧
    (decodeBlob oobBlob).map
        (fun r => r.structs.map (fun s => (s.nameOff, s.nameLength))) =
      some [(1042, 0)] := by decide

/-- C3 amended: the decoder performs no bounds checks on string-table
offsets or lengths; a decode fails only when the file is shorter than the
header or shorter than the declared total length, never because of an
out-of-range string reference. -/
theorem C3_unchecked_string_offsets (file : Buf) :
    decodeBlob file = none ↔
      file.length < sizeof_BlobHeaderV1 ∨
        file.length < blobLength (decodeHeader file).2 :=
  decodeBlob_eq_none_iff file

/-- C3 witness: the failure characterization at the empty file. -/
theorem C3_witness :
    decodeBlob [] = none ↔
      ([] : Buf).length < sizeof_BlobHeaderV1 ∨
        ([] : Buf).length < blobLength (decodeHeader []).2 :=
  C3_unchecked_string_offsets []

/-- C4 counterexample: a file three bytes longer than its declared total
size decodes successfully — the length mismatch is not detected. -/
theorem C4_counterexample :
    blobLength (decodeHeader longBlob).2 < longBlob.length ∧
    (decodeBlob longBlob).isSome = true := by decide

/-- C4 amended: only a file shorter than the declared total size
header size + structDataSize + stringTableDataSize is a fatal read error;
a longer file decodes from its first blobLength bytes and the trailing
bytes are ignored. -/
theorem C4_short_read_only (file : Buf) (h20 : sizeof_BlobHeaderV1 ≤ file.length) :
    ((decodeBlob file).isSome = true ↔
      blobLength (decodeHeader file).2 ≤ file.length) ∧
    (blobLength (decodeHeader file).2 ≤ file.length →
      decodeBlob file = decodeBlob (file.take (blobLength (decodeHeader file).2))) := by
  have hn := decodeBlob_eq_none_iff file
  constructor
  · constructor
    · intro hiss
      by_contra hlt
      have hnone : decodeBlob file = none := hn.mpr (Or.inr (by omega))
      rw [hnone] at hiss
      simp at hiss
    · intro hle
      cases hd : decodeBlob file with
      | none =>
        have := hn.mp hd
        simp only [sizeof_BlobHeaderV1] at h20 this
        omega
      | some r => simp
  · intro hle
    exact (decodeBlob_take file hle).symm

/-- C4 witness: the characterization applied at the over-long file. -/
theorem C4_witness :
    sizeof_BlobHeaderV1 ≤ longBlob.length ∧
    ((decodeBlob longBlob).isSome = true ↔
      blobLength (decodeHeader longBlob).2 ≤ longBlob.length) :=
  ⟨by decide, (C4_short_read_only longBlob (by decide)).1⟩

/-- C5: a structure record whose (post-swap) superName field equals the
all-ones 32-bit value decodes to no superclass (NULL pointer, length 0)
with no string-table access, while any other value is resolved through the
string table; checked also on concrete sentinel and non-sentinel
records. -/
theorem C5_sentinel_superclass :
    (∀ (swaps : Bool) (sds : Nat) (buf : Buf) (cur : Nat),
      (readU32 (structSwap swaps buf cur) (cur + 4) = 4294967295 →
        (readOneStruct swaps sds buf cur).1.superNameOff = none ∧
        (readOneStruct swaps sds buf cur).1.superNameLength = 0) ∧
      (readU32 (structSwap swaps buf cur) (cur + 4) ≠ 4294967295 →
        (readOneStruct swaps sds buf cur).1.superNameOff =
          some (BLOBSTRING_AT_data sds (readU32 (structSwap swaps buf cur) (cur + 4))) ∧
        (readOneStruct swaps sds buf cur).1.superNameLength =
          BLOBSTRING_AT_length (structSwap swaps buf cur) sds
            (readU32 (structSwap swaps buf cur) (cur + 4)))) ∧
    (readOneStruct false 40 c5sent 0).1.superNameOff = none ∧
    (readOneStruct false 40 c5sent 0).1.superNameLength = 0 ∧
    (readOneStruct false 40 c5rec 0).1.superNameOff = some 48 := by
  refine ⟨?_, by decide, by decide, by decide⟩
  intro swaps sds buf cur
  constructor
  · intro h
    simp [readOneStruct, h]
  · intro h
    simp [readOneStruct, h]

/-- C5 witness: the sentinel branch at the concrete record. -/
theorem C5_witness :
    readU32 (structSwap false c5sent 0) 4 = 4294967295 ∧
    (readOneStruct false 40 c5sent 0).1.superNameOff = none :=
  ⟨by decide, ((C5_sentinel_superclass.1 false 40 c5sent 0).1 (by decide)).1⟩

/-- C6 counterexample: on c6Blob the report orders "abc" before "ab",
although the decoded name "ab" is byte-wise smaller than "abc": the
comparator reads NUL-terminated byte runs from the name pointers, running
past the declared name length into the next entry's length byte. -/
theorem C6_counterexample :
    (decodeBlob c6Blob).map
        (fun r => (r.structs.map (structName r.finalBuf),
          r.sortedStructs.map (structName r.finalBuf))) =
      some ([[97, 98], [97, 98, 99]], [[97, 98, 99], [97, 98]]) ∧
    strLt [97, 98] [97, 98, 99] = true := by decide

/-- C6 amended: the report collection is sorted (and is a permutation of
the decode-order collection) under the byte-wise NUL-terminated strcmp
ordering read from each structure's name pointer — which agrees with
byte-wise ordering of the decoded names whenever each name stops at a NUL;
in particular "Zeta", "Alpha", "Mu" in on-disk order are reported as
"Alpha", "Mu", "Zeta" while decode order remains "Zeta", "Alpha", "Mu". -/
theorem C6_sorted_by_strcmp :
    (∀ (buf : Buf) (l : List Structure),
      List.Sorted (fun a b => compareStructs buf b a = false) (sortStructs buf l) ∧
      (sortStructs buf l).Perm l) ∧
    (decodeBlob zamBlob).map
        (fun r => (r.structs.map (structName r.finalBuf),
          r.sortedStructs.map (structName r.finalBuf))) =
      some ([[90, 101, 116, 97], [65, 108, 112, 104, 97], [77, 117]],
        [[65, 108, 112, 104, 97], [77, 117], [90, 101, 116, 97]]) := by
  refine ⟨?_, by decide⟩
  intro buf l
  haveI htot : IsTotal Structure (fun a b => compareStructs buf b a = false) := by
    constructor
    intro a b
    by_cases hab : compareStructs buf a b = true
    · exact Or.inl (strLt_asymm _ _ hab)
    · exact Or.inr (by simpa using hab)
  haveI htrans : IsTrans Structure (fun a b => compareStructs buf b a = false) := by
    constructor
    intro a b c h1 h2
    exact strLt_false_trans _ _ _ h1 h2
  exact ⟨List.sorted_insertionSort _ l, List.perm_insertionSort _ l⟩

/-- C6 witness: the sort property at a concrete instance. -/
theorem C6_witness :
    List.Sorted (fun a b => compareStructs [] b a = false) (sortStructs [] []) :=
  (C6_sorted_by_strcmp.1 [] []).1

/-- C7: every enumerated string entry carries exactly `length` content
bytes, the first entry sits at the initial cursor, and consecutive entry
offsets differ by exactly length + 2 + (length mod 2) (one extra pad byte
for odd lengths, none for even); concretely "abc" (odd length) is followed
by an entry at offset 6 and a length-0 entry decodes to empty content and
consumes exactly 2 bytes. -/
theorem C7_entry_advance :
    (∀ (swaps : Bool) (start stop fuel : Nat) (buf : Buf) (cur : Nat), start ≤ cur →
      (∀ e ∈ (readStrings swaps start stop fuel buf cur).1, e.data.length = e.length) ∧
      (∀ e, (readStrings swaps start stop fuel buf cur).1.head? = some e →
        e.offset = cur - start) ∧
      List.Chain' (fun e1 e2 => e2.offset = e1.offset + e1.length + 2 + e1.length % 2)
        (readStrings swaps start stop fuel buf cur).1) ∧
    readStrings false 0 8 8 c7region 0 =
      ([⟨0, 3, [97, 98, 99]⟩, ⟨6, 0, []⟩], c7region) := by
  refine ⟨?_, by decide⟩
  intro swaps start stop fuel buf cur hc
  exact readStrings_chain swaps start stop fuel buf cur hc

/-- C7 witness: entry sizes at the concrete region. -/
theorem C7_witness :
    (0 : Nat) ≤ 0 ∧
    ∀ e ∈ (readStrings false 0 8 8 c7region 0).1, e.data.length = e.length :=
  ⟨Nat.le_refl 0, (C7_entry_advance.1 false 0 8 8 c7region 0 (Nat.le_refl 0)).1⟩

/-- C8: the swap primitives reverse the byte order of their 2-, 4-, and
8-byte operand in place at any position (no alignment assumed; the 8-byte
swap exchanges positions 0↔7, 1↔6, 2↔5, 3↔4), leave all other bytes
unchanged, and applying the same swap twice restores the original buffer
for every input. -/
theorem C8_swap_reversal_involution :
    (∀ (pre : Buf) (a b : Nat) (rest : Buf),
      swap_u16 (pre ++ a :: b :: rest) pre.length = pre ++ b :: a :: rest) ∧
    (∀ (pre : Buf) (a b c d : Nat) (rest : Buf),
      swap_u32 (pre ++ a :: b :: c :: d :: rest) pre.length =
        pre ++ d :: c :: b :: a :: rest) ∧
    (∀ (pre : Buf) (a b c d e f g h : Nat) (rest : Buf),
      swap_u64pairs (pre ++ a :: b :: c :: d :: e :: f :: g :: h :: rest) pre.length =
        pre ++ h :: g :: f :: e :: d :: c :: b :: a :: rest) ∧
    (∀ (pre : Buf) (a b : Nat) (rest : Buf),
      swap_u16 (swap_u16 (pre ++ a :: b :: rest) pre.length) pre.length =
        pre ++ a :: b :: rest) ∧
    (∀ (pre : Buf) (a b c d : Nat) (rest : Buf),
      swap_u32 (swap_u32 (pre ++ a :: b :: c :: d :: rest) pre.length) pre.length =
        pre ++ a :: b :: c :: d :: rest) ∧
    (∀ (pre : Buf) (a b c d e f g h : Nat) (rest : Buf),
      swap_u64pairs (swap_u64pairs (pre ++ a :: b :: c :: d :: e :: f :: g :: h :: rest)
          pre.length) pre.length =
        pre ++ a :: b :: c :: d :: e :: f :: g :: h :: rest) := by
  refine ⟨swap_u16_mid, swap_u32_mid, swap_u64pairs_mid, ?_, ?_, ?_⟩
  · intro pre a b rest
    rw [swap_u16_mid, swap_u16_mid]
  · intro pre a b c d rest
    rw [swap_u32_mid, swap_u32_mid]
  · intro pre a b c d e f g h rest
    rw [swap_u64pairs_mid, swap_u64pairs_mid]

/-- C8 witness: the 32-bit reversal at a concrete buffer. -/
theorem C8_witness :
    swap_u32 (([] : Buf) ++ 1 :: 2 :: 3 :: 4 :: []) (List.length ([] : Buf)) =
      ([] : Buf) ++ 4 :: 3 :: 2 :: 1 :: [] :=
  C8_swap_reversal_involution.2.1 [] 1 2 3 4 []

/-- C9 counterexample: on a blob that needs byte swapping, the in-memory
buffer is modified between the full-buffer read and the end of decoding:
the string entry's length bytes at offsets 20-21 are swapped in place. -/
theorem C9_counterexample :
    (decodeBlob swappedBlob).map DecodeResult.swapsNeeded = some true ∧
    (decodeBlob swappedBlob).map DecodeResult.finalBuf =
      some [0, 0, 0, 1, 1, 8, 1, 0, 0, 0, 0, 0, 0, 0, 0, 4, 0, 0, 0, 0, 1, 0, 97, 0] ∧
    swappedBlob.take (blobLength (decodeHeader swappedBlob).2) ≠
      [0, 0, 0, 1, 1, 8, 1, 0, 0, 0, 0, 0, 0, 0, 0, 4, 0, 0, 0, 0, 1, 0, 97, 0] := by
  decide

/-- C9 amended: the blob buffer is read-only during decode only when no
byte swapping is needed; then the final buffer equals the bytes read from
the file. -/
theorem C9_read_only_when_no_swap (file : Buf) (r : DecodeResult)
    (hd : decodeBlob file = some r) (hs : r.swapsNeeded = false) :
    r.finalBuf = file.take (blobLength r.header) := by
  simp only [decodeBlob] at hd
  by_cases h1 : file.length < sizeof_BlobHeaderV1
  · rw [if_pos h1] at hd
    exact absurd hd (by simp)
  · rw [if_neg h1] at hd
    by_cases h2 : file.length < blobLength (decodeHeader file).2
    · rw [if_pos h2] at hd
      exact absurd hd (by simp)
    · rw [if_neg h2] at hd
      obtain rfl := Option.some.inj hd
      have hsw : (decodeHeader file).1 = false := hs
      dsimp only
      rw [hsw, readStrings_noswap, readStructs_noswap]

/-- C9 witness: the no-swap case at a concrete native-order blob. -/
theorem C9_witness :
    decodeBlob plainBlob = some plainResult ∧
    plainResult.swapsNeeded = false ∧
    plainResult.finalBuf = plainBlob.take (blobLength plainResult.header) :=
  ⟨by decide, by decide,
    C9_read_only_when_no_swap plainBlob plainResult (by decide) (by decide)⟩

/-- C10: when swapping is needed, the enumeration pass maps a string-table
region whose 16-bit length fields are in reversed order to the identical
region with every length field swapped exactly once into native order
(contents and padding untouched) while enumerating exactly the encoded
entries; afterwards the struct walker's resolution primitives — plain
reads with no further swap — recover every entry's exact length and
content at its boundary offset. -/
theorem C10_lengths_swapped_once :
    (∀ (es : List (List Nat)), (∀ s ∈ es, s.length < 65536) →
      ∀ (pre : Buf) (START fuel : Nat), START ≤ pre.length → es.length ≤ fuel →
        readStrings true START (pre.length + (tableSwapped es).length) fuel
            (pre ++ tableSwapped es) pre.length =
          (entriesSpec es (pre.length - START), pre ++ tableNative es)) ∧
    (∀ (es : List (List Nat)), (∀ s ∈ es, s.length < 65536) →
      ∀ (pre : Buf), ∀ e ∈ entriesSpec es 0,
        BLOBSTRING_AT_length (pre ++ tableNative es) pre.length e.offset = e.length ∧
        slice (pre ++ tableNative es) (BLOBSTRING_AT_data pre.length e.offset)
          e.length = e.data) := by
  refine ⟨readStrings_table, ?_⟩
  intro es h pre e he
  exact tableNative_resolve es h pre pre.length (Nat.le_refl _) e
    (by rw [Nat.sub_self]; exact he)

/-- C10 witness: the pass at a concrete two-entry table. -/
theorem C10_witness :
    (∀ s ∈ [[97, 98, 99], ([] : List Nat)], s.length < 65536) ∧
    readStrings true 0 (([] : Buf).length + (tableSwapped [[97, 98, 99], []]).length) 2
        (([] : Buf) ++ tableSwapped [[97, 98, 99], []]) ([] : Buf).length =
      (entriesSpec [[97, 98, 99], []] (([] : Buf).length - 0),
        ([] : Buf) ++ tableNative [[97, 98, 99], []]) :=
  ⟨by decide, C10_lengths_swapped_once.1 [[97, 98, 99], []] (by decide) [] 0 2
    (by decide) (by decide)⟩

end BlobReader
